import Mathlib

/-!
A verification development for two RethinkDB source files:
`src/clustering/table_manager/table_meta_client.cc` (the table metadata
client: directory reduction, lookup API and fan-out RPC result
classification) and `src/arch/linux/network.cc` (the nonblocking network
connection and listener engine).

The C++ code is embedded shallowly: plain data is modelled by `Nat`
(uuids, names, database ids, bytes, descriptors), `std::set` by `Finset`,
the ordered `std::map` keyed by table id by an association list, out
parameters by explicit before/after values, and event-driven code by step
functions over explicit event or syscall-result sequences.
-/

namespace RethinkDB

/-- Modelled from the spec: the epoch of
`table_meta_manager_bcard_t::timestamp_t` is a pair
`(wall_microtime, uuid)`; the type itself is declared in a header that is
not part of this slice.  Uuids are modelled as naturals. -/
structure Epoch where
  timestamp : Nat
  id : Nat
deriving DecidableEq, Repr

/-- Modelled from the spec: epochs are totally ordered, first by wall-clock
microtime, ties broken by the uuid; `supersedes` is the strict order.  The
implementation lives in a header outside this slice. -/
def Epoch.supersedes (a b : Epoch) : Bool :=
  decide (b.timestamp < a.timestamp) ||
    (decide (a.timestamp = b.timestamp) && decide (b.id < a.id))

/-- Modelled from the spec: timestamps are totally ordered by
`(epoch, log_index)`; `supersedes` is the strict lexicographic order.  The
implementation lives in a header outside this slice. -/
structure MetaTimestamp where
  epoch : Epoch
  log_index : Nat
deriving DecidableEq, Repr

def MetaTimestamp.supersedes (a b : MetaTimestamp) : Bool :=
  a.epoch.supersedes b.epoch ||
    (decide (a.epoch = b.epoch) && decide (b.log_index < a.log_index))

theorem MetaTimestamp.supersedes_iff (a b : MetaTimestamp) :
    a.supersedes b = true ↔
      (b.epoch.timestamp < a.epoch.timestamp ∨
        (a.epoch.timestamp = b.epoch.timestamp ∧ b.epoch.id < a.epoch.id) ∨
        (a.epoch = b.epoch ∧ b.log_index < a.log_index)) := by
  simp [MetaTimestamp.supersedes, Epoch.supersedes, Bool.or_eq_true,
    Bool.and_eq_true, decide_eq_true_iff]
  tauto

theorem MetaTimestamp.supersedes_self (a : MetaTimestamp) :
    a.supersedes a = false := by
  rw [Bool.eq_false_iff]
  intro h
  rw [MetaTimestamp.supersedes_iff] at h
  omega

theorem MetaTimestamp.supersedes_asymm (a b : MetaTimestamp)
    (h : a.supersedes b = true) : b.supersedes a = false := by
  rw [Bool.eq_false_iff]
  intro h'
  obtain ⟨⟨at1, ai⟩, al⟩ := a
  obtain ⟨⟨bt, bi⟩, bl⟩ := b
  simp only [ne_eq, MetaTimestamp.supersedes_iff, Epoch.mk.injEq] at h h'
  omega

theorem MetaTimestamp.not_supersedes_trans (a b c : MetaTimestamp)
    (hab : a.supersedes b = false) (hbc : b.supersedes c = false) :
    a.supersedes c = false := by
  rw [Bool.eq_false_iff] at hab hbc ⊢
  intro hac
  obtain ⟨⟨at1, ai⟩, al⟩ := a
  obtain ⟨⟨bt, bi⟩, bl⟩ := b
  obtain ⟨⟨ct, ci⟩, cl⟩ := c
  simp only [ne_eq, MetaTimestamp.supersedes_iff, Epoch.mk.injEq] at hab hbc hac
  omega

/-- The fields of `table_meta_bcard_t` (one per-table advertisement in the
directory) that `table_meta_client.cc` reads; database ids, names and
primary keys are opaque scalars modelled by naturals. -/
structure TableBcard where
  database : Nat
  name : Nat
  primary_key : Nat
  timestamp : MetaTimestamp
  is_leader : Bool
deriving DecidableEq, Repr

/-- `table_meta_client_t::table_metadata_t`: the reduced per-table entry of
`table_metadata_by_id`. -/
structure TableMetadata where
  witnesses : Finset Nat
  database : Nat
  name : Nat
  primary_key : Nat
  timestamp : MetaTimestamp
deriving DecidableEq

/-- The watchable map `table_metadata_by_id`, keyed by table id, embedded
as an association list with at most one live entry per key. -/
abbrev MetaMap := List (Nat × TableMetadata)

def lookupTable : MetaMap → Nat → Option TableMetadata
  | [], _ => none
  | kv :: rest, k => if kv.1 = k then some kv.2 else lookupTable rest k

def eraseTable : MetaMap → Nat → MetaMap
  | [], _ => []
  | kv :: rest, k => if kv.1 = k then eraseTable rest k else kv :: eraseTable rest k

def setTable (m : MetaMap) (k : Nat) (v : TableMetadata) : MetaMap :=
  (k, v) :: eraseTable m k

theorem lookupTable_eraseTable_self (m : MetaMap) (k : Nat) :
    lookupTable (eraseTable m k) k = none := by
  induction m with
  | nil => rfl
  | cons kv rest ih =>
    by_cases h : kv.1 = k <;> simp [eraseTable, lookupTable, h, ih]

theorem lookupTable_eraseTable_ne (m : MetaMap) (k k' : Nat) (h : k ≠ k') :
    lookupTable (eraseTable m k) k' = lookupTable m k' := by
  induction m with
  | nil => rfl
  | cons kv rest ih =>
    by_cases h1 : kv.1 = k
    · have h2 : ¬ kv.1 = k' := by omega
      simp [eraseTable, lookupTable, h1, h2, ih, h]
    · simp only [eraseTable, if_neg h1, lookupTable]
      by_cases h2 : kv.1 = k' <;> simp [h2, ih]

theorem lookupTable_setTable_self (m : MetaMap) (k : Nat) (v : TableMetadata) :
    lookupTable (setTable m k v) k = some v := by
  simp [setTable, lookupTable]

theorem lookupTable_setTable_ne (m : MetaMap) (k k' : Nat) (v : TableMetadata)
    (h : k ≠ k') :
    lookupTable (setTable m k v) k' = lookupTable m k' := by
  simp [setTable, lookupTable, h, lookupTable_eraseTable_ne m k k' h]

/-- One directory delta delivered to the subscription: the `(peer, table)`
key and the new value (`none` when the key disappeared). -/
structure DirDelta where
  peer : Nat
  table : Nat
  value : Option TableBcard
deriving DecidableEq

/-- `table_meta_client_t::on_directory_change` (table_meta_client.cc lines
413-442): the `change_key` lambda applied to the entry keyed by the
delta's table id. -/
def on_directory_change (m : MetaMap) (d : DirDelta) : MetaMap :=
  match lookupTable m d.table, d.value with
  | none, some bc =>
      setTable m d.table
        { witnesses := {d.peer}, database := bc.database, name := bc.name,
          primary_key := bc.primary_key, timestamp := bc.timestamp }
  | some md, some bc =>
      let md1 := { md with witnesses := insert d.peer md.witnesses }
      let md2 :=
        if bc.timestamp.supersedes md.timestamp then
          { md1 with database := bc.database, name := bc.name,
                     timestamp := bc.timestamp }
        else md1
      setTable m d.table md2
  | some md, none =>
      let w := md.witnesses.erase d.peer
      if w = ∅ then eraseTable m d.table
      else setTable m d.table { md with witnesses := w }
  | none, none => m

def applyDeltas (m : MetaMap) (ds : List DirDelta) : MetaMap :=
  ds.foldl on_directory_change m

theorem lookupTable_on_directory_change_ne (m : MetaMap) (d : DirDelta)
    (t : Nat) (h : d.table ≠ t) :
    lookupTable (on_directory_change m d) t = lookupTable m t := by
  cases hl : lookupTable m d.table <;> cases hv : d.value <;>
    simp only [on_directory_change, hl, hv] <;>
    try split
  all_goals first
    | rfl
    | rw [lookupTable_setTable_ne m d.table t _ h]
    | rw [lookupTable_eraseTable_ne m d.table t h]

theorem on_directory_change_step_not_superseded (m : MetaMap) (d : DirDelta)
    (t : Nat) (md md' : TableMetadata)
    (h0 : lookupTable m t = some md)
    (h1 : lookupTable (on_directory_change m d) t = some md') :
    md.timestamp.supersedes md'.timestamp = false := by
  by_cases ht : d.table = t
  · subst ht
    simp only [on_directory_change, h0] at h1
    cases hv : d.value with
    | none =>
      rw [hv] at h1
      simp only [] at h1
      split at h1
      · rw [lookupTable_eraseTable_self] at h1
        cases h1
      · rw [lookupTable_setTable_self] at h1
        cases h1
        exact MetaTimestamp.supersedes_self _
    | some bc =>
      rw [hv] at h1
      simp only [lookupTable_setTable_self] at h1
      by_cases hsup : bc.timestamp.supersedes md.timestamp = true
      · rw [if_pos hsup] at h1
        cases h1
        exact MetaTimestamp.supersedes_asymm _ _ hsup
      · rw [if_neg hsup] at h1
        cases h1
        exact MetaTimestamp.supersedes_self _
  · rw [lookupTable_on_directory_change_ne m d t ht, h0] at h1
    cases h1
    exact MetaTimestamp.supersedes_self _

theorem on_directory_change_primary_key_frame (m : MetaMap) (d : DirDelta)
    (t : Nat) (md md' : TableMetadata)
    (h0 : lookupTable m t = some md)
    (h1 : lookupTable (on_directory_change m d) t = some md') :
    md'.primary_key = md.primary_key := by
  by_cases ht : d.table = t
  · subst ht
    simp only [on_directory_change, h0] at h1
    cases hv : d.value with
    | none =>
      rw [hv] at h1
      simp only [] at h1
      split at h1
      · rw [lookupTable_eraseTable_self] at h1
        cases h1
      · rw [lookupTable_setTable_self] at h1
        cases h1
        rfl
    | some bc =>
      rw [hv] at h1
      simp only [lookupTable_setTable_self] at h1
      by_cases hsup : bc.timestamp.supersedes md.timestamp = true
      · rw [if_pos hsup] at h1
        cases h1
        rfl
      · rw [if_neg hsup] at h1
        cases h1
        rfl
  · rw [lookupTable_on_directory_change_ne m d t ht, h0] at h1
    cases h1
    rfl

/-- C2 fails on the code as stated: when the only witness of a table
disappears the reduction entry is deleted, and a peer that then advertises
the same table with an older timestamp re-creates the entry carrying that
older timestamp.  Concretely, after delta `(peer 1, table 7, timestamp
epoch 2)` the reduction carries epoch-2; after the further deltas
`(peer 1, table 7, gone)` and `(peer 2, table 7, timestamp epoch 1)` it
carries epoch-1, which the earlier carried timestamp supersedes. -/
theorem carried_timestamp_not_monotone_example :
    (lookupTable (applyDeltas []
        [⟨1, 7, some ⟨0, 0, 0, ⟨⟨2, 0⟩, 0⟩, false⟩⟩]) 7).map TableMetadata.timestamp
      = some ⟨⟨2, 0⟩, 0⟩ ∧
    (lookupTable (applyDeltas []
        [⟨1, 7, some ⟨0, 0, 0, ⟨⟨2, 0⟩, 0⟩, false⟩⟩,
         ⟨1, 7, none⟩,
         ⟨2, 7, some ⟨0, 0, 0, ⟨⟨1, 0⟩, 0⟩, false⟩⟩]) 7).map TableMetadata.timestamp
      = some ⟨⟨1, 0⟩, 0⟩ ∧
    MetaTimestamp.supersedes ⟨⟨2, 0⟩, 0⟩ ⟨⟨1, 0⟩, 0⟩ = true := by
  decide

/-- C2 (amended): along any delta sequence during which the reduction
entry for a given table id is continuously present (it is never deleted at
an intermediate point), the carried timestamp is monotone nondecreasing
under the supersedes order: no earlier carried timestamp supersedes a
later one. -/
theorem carried_timestamp_monotone (ds : List DirDelta) (m : MetaMap) (t : Nat)
    (md md' : TableMetadata)
    (h0 : lookupTable m t = some md)
    (halive : ∀ i ≤ ds.length,
      (lookupTable (applyDeltas m (ds.take i)) t).isSome = true)
    (h1 : lookupTable (applyDeltas m ds) t = some md') :
    md.timestamp.supersedes md'.timestamp = false := by
  induction ds generalizing m md with
  | nil =>
    simp only [applyDeltas, List.foldl_nil] at h1
    rw [h0] at h1
    cases h1
    exact MetaTimestamp.supersedes_self _
  | cons d rest ih =>
    have halive1 : (lookupTable (on_directory_change m d) t).isSome = true := by
      have h := halive 1 (by simp)
      simpa [applyDeltas] using h
    obtain ⟨md1, hmd1⟩ := Option.isSome_iff_exists.mp halive1
    have step := on_directory_change_step_not_superseded m d t md md1 h0 hmd1
    have tail : md1.timestamp.supersedes md'.timestamp = false := by
      apply ih (on_directory_change m d) md1 hmd1
      · intro i hi
        have h := halive (i + 1) (by simpa using hi)
        simpa [applyDeltas] using h
      · simpa [applyDeltas] using h1
    exact MetaTimestamp.not_supersedes_trans _ _ _ step tail

theorem carried_timestamp_monotone_check :
    MetaTimestamp.supersedes ⟨⟨1, 0⟩, 0⟩ ⟨⟨2, 0⟩, 0⟩ = false :=
  carried_timestamp_monotone [⟨2, 7, some ⟨5, 6, 4, ⟨⟨2, 0⟩, 0⟩, false⟩⟩]
    [(7, ⟨{1}, 5, 6, 4, ⟨⟨1, 0⟩, 0⟩⟩)] 7
    ⟨{1}, 5, 6, 4, ⟨⟨1, 0⟩, 0⟩⟩ ⟨insert 2 {1}, 5, 6, 4, ⟨⟨2, 0⟩, 0⟩⟩
    (by decide) (by decide) (by decide)

/-- C5: a delta whose value's timestamp supersedes the timestamp of an
already-existing reduction entry overwrites the entry's database, name and
timestamp (and inserts the peer into the witness set) but leaves the
primary_key unchanged; and no delta applied to an existing entry ever
changes its primary_key, which is only written when the entry is first
created. -/
theorem on_directory_change_superseding_update (m : MetaMap) (t p : Nat)
    (md : TableMetadata) (bc : TableBcard)
    (h0 : lookupTable m t = some md)
    (hsup : bc.timestamp.supersedes md.timestamp = true) :
    lookupTable (on_directory_change m ⟨p, t, some bc⟩) t =
      some { witnesses := insert p md.witnesses, database := bc.database,
             name := bc.name, primary_key := md.primary_key,
             timestamp := bc.timestamp } ∧
    (∀ d : DirDelta, ∀ md' : TableMetadata,
      lookupTable (on_directory_change m d) t = some md' →
      md'.primary_key = md.primary_key) := by
  constructor
  · simp only [on_directory_change, h0, hsup, if_true, lookupTable_setTable_self]
  · intro d md' h1
    exact on_directory_change_primary_key_frame m d t md md' h0 h1

theorem on_directory_change_superseding_update_check :
    lookupTable (on_directory_change [(7, ⟨{1}, 5, 6, 4, ⟨⟨1, 0⟩, 0⟩⟩)]
        ⟨2, 7, some ⟨8, 9, 10, ⟨⟨2, 0⟩, 0⟩, false⟩⟩) 7 =
      some { witnesses := insert 2 {1}, database := 8, name := 9,
             primary_key := 4, timestamp := ⟨⟨2, 0⟩, 0⟩ } ∧
    (∀ d : DirDelta, ∀ md' : TableMetadata,
      lookupTable (on_directory_change [(7, ⟨{1}, 5, 6, 4, ⟨⟨1, 0⟩, 0⟩⟩)] d) 7
        = some md' → md'.primary_key = 4) :=
  on_directory_change_superseding_update [(7, ⟨{1}, 5, 6, 4, ⟨⟨1, 0⟩, 0⟩⟩)] 7 2
    ⟨{1}, 5, 6, 4, ⟨⟨1, 0⟩, 0⟩⟩ ⟨8, 9, 10, ⟨⟨2, 0⟩, 0⟩, false⟩
    (by decide) (by decide)

/-- The loop body of `table_meta_client_t::find` (lines 28-34): on a match
of both database and name, bump `*count_out` and write the key to
`*table_id_out`.  The accumulator is `(table_id_out, count_out)`. -/
def findStep (db nm : Nat) (acc : Nat × Nat) (kv : Nat × TableMetadata) :
    Nat × Nat :=
  if kv.2.database = db ∧ kv.2.name = nm then (kv.1, acc.2 + 1) else acc

/-- `table_meta_client_t::find` (lines 22-36): `*count_out = 0`, then
`read_all` over the reduction, then return `*count_out == 1`.  `tid0` is
the caller's value of `*table_id_out` before the call (the code writes it
only on a match).  The result is `(return value, table_id_out, count_out)`. -/
def find (m : MetaMap) (db nm tid0 : Nat) : Bool × Nat × Nat :=
  let r := m.foldl (findStep db nm) (tid0, 0)
  (decide (r.2 = 1), r.1, r.2)

theorem find_loop_spec (db nm : Nat) (m : MetaMap) :
    ∀ (t0 c0 : Nat),
      (m.foldl (findStep db nm) (t0, c0)).2 =
        c0 + m.countP (fun kv => decide (kv.2.database = db ∧ kv.2.name = nm)) ∧
      (m.countP (fun kv => decide (kv.2.database = db ∧ kv.2.name = nm)) = 0 →
        (m.foldl (findStep db nm) (t0, c0)).1 = t0) ∧
      (1 ≤ m.countP (fun kv => decide (kv.2.database = db ∧ kv.2.name = nm)) →
        ∃ md, ((m.foldl (findStep db nm) (t0, c0)).1, md) ∈ m ∧
          md.database = db ∧ md.name = nm) := by
  induction m with
  | nil => intro t0 c0; simp
  | cons kv rest ih =>
    intro t0 c0
    by_cases h : kv.2.database = db ∧ kv.2.name = nm
    · simp only [List.foldl_cons, List.countP_cons, findStep, if_pos h,
        decide_eq_true_eq, h, and_self, if_true]
      obtain ⟨ha, hb, hc⟩ := ih kv.1 (c0 + 1)
      refine ⟨by omega, by omega, ?_⟩
      intro _
      by_cases hz :
          rest.countP (fun kv => decide (kv.2.database = db ∧ kv.2.name = nm)) = 0
      · refine ⟨kv.2, ?_, h.1, h.2⟩
        rw [hb hz]
        simp
      · obtain ⟨md, hmem, hdb, hnm⟩ := hc (by omega)
        exact ⟨md, by simp [hmem], hdb, hnm⟩
    · simp only [List.foldl_cons, List.countP_cons, findStep, if_neg h,
        decide_eq_true_eq, h, if_false]
      obtain ⟨ha, hb, hc⟩ := ih t0 c0
      refine ⟨by omega, fun hz => hb (by omega), ?_⟩
      intro hge
      obtain ⟨md, hmem, hdb, hnm⟩ := hc (by omega)
      exact ⟨md, by simp [hmem], hdb, hnm⟩

/-- C9: `find` writes to `*count_out` the exact number of reduction
entries matching both database and name, returns true iff that count is
exactly 1, and whenever the count is at least 1 (including when it exceeds
1 and the return value is false) `*table_id_out` holds the key of some
matching entry. -/
theorem find_spec (m : MetaMap) (db nm tid0 : Nat) :
    (find m db nm tid0).2.2 =
      m.countP (fun kv => decide (kv.2.database = db ∧ kv.2.name = nm)) ∧
    ((find m db nm tid0).1 = true ↔ (find m db nm tid0).2.2 = 1) ∧
    (1 ≤ (find m db nm tid0).2.2 →
      ∃ md, ((find m db nm tid0).2.1, md) ∈ m ∧
        md.database = db ∧ md.name = nm) := by
  obtain ⟨ha, hb, hc⟩ := find_loop_spec db nm m tid0 0
  simp only [find]
  refine ⟨by omega, by simp, ?_⟩
  intro hge
  exact hc (by omega)

/-- `table_meta_client_t::get_name` (lines 38-54): a point read of the
reduction; `db0` and `name0` are the caller's values of the out parameters
before the call.  The result is `(return value, db_out, name_out)`. -/
def get_name (m : MetaMap) (table_id db0 name0 : Nat) : Bool × Nat × Nat :=
  match lookupTable m table_id with
  | none => (false, db0, name0)
  | some md => (true, md.database, md.name)

/-- C10: when no reduction entry exists for the table id, `get_name`
returns false and leaves both out parameters unchanged; when an entry
exists it returns true and writes exactly that entry's database and name. -/
theorem get_name_spec (m : MetaMap) (table_id db0 name0 : Nat) :
    (lookupTable m table_id = none →
      get_name m table_id db0 name0 = (false, db0, name0)) ∧
    (∀ md : TableMetadata, lookupTable m table_id = some md →
      get_name m table_id db0 name0 = (true, md.database, md.name)) := by
  constructor
  · intro h
    simp [get_name, h]
  · intro md h
    simp [get_name, h]

/-- The signals that can fire after `get_config` sends its request: the
reply mailbox pulses the promise with a config map (table id, config),
the disconnect watcher pulses, or the interruptor pulses.  A trace lists
every signal that ever fires, in order; a signal not in the trace never
fires. -/
inductive GCEvent where
  | reply (configs : List (Nat × Nat))
  | disconnect
  | interrupt
deriving DecidableEq, Repr

inductive GCOutcome where
  | returnsTrue (configs : List (Nat × Nat))
  | returnsFalse
  | interrupted
  | blocks
deriving DecidableEq, Repr

def isReply : GCEvent → Bool
  | .reply _ => true
  | _ => false

/-- The tail of `table_meta_client_t::get_config` (lines 95-114) after the
request is sent: `wait_interruptible(&done_cond, &interruptor)` returns at
the first signal of the trace (throwing on the interruptor), after which
`promise.wait()` blocks until some reply signal pulses the promise — it is
not connected to the disconnect watcher or the interruptor.  An empty
reply map returns false, a nonempty one returns true with the config. -/
def get_config_after_send : List GCEvent → GCOutcome
  | [] => .blocks
  | .interrupt :: _ => .interrupted
  | .reply configs :: _ =>
      if configs.isEmpty then .returnsFalse else .returnsTrue configs
  | .disconnect :: rest =>
      match rest.find? isReply with
      | some (.reply configs) =>
          if configs.isEmpty then .returnsFalse else .returnsTrue configs
      | _ => .blocks

/-- C1 fails on the code: when the disconnect watcher fires and no reply
ever arrives (trace `[disconnect]`, interruptor never pulsed), `get_config`
does not return false — after `wait_interruptible` returns it calls
`promise.wait()` on a promise that nothing will ever pulse, so the call
blocks indefinitely.  Contrast `set_config` (line 377), which checks
`dw.is_pulsed()` before touching the promise. -/
theorem get_config_blocks_on_disconnect :
    get_config_after_send [GCEvent.disconnect] = GCOutcome.blocks ∧
    get_config_after_send [GCEvent.disconnect] ≠ GCOutcome.returnsFalse := by
  decide

/-- Per-peer outcome of one fan-out sub-task in `create` (lines 200-223):
the ack mailbox fired, or the sub-task was aborted by its disconnect
watcher or the interruptor (the per-peer catch swallows the exception).
One entry per business card found. -/
inductive PeerOutcome where
  | acked
  | lost
deriving DecidableEq, Repr

/-- Outcome of `run_key_until_satisfied` joined with the 10-second timer
(lines 232-245): the predicate was satisfied, or the combined wait threw
`interrupted_exc_t`, in which case the code re-checks whether the real
interruptor (rather than the timer) is pulsed. -/
inductive DirWait where
  | appeared
  | waitInterrupted (pulsed_now : Bool)
deriving DecidableEq, Repr

/-- `table_meta_client_t::result_t`, plus a case for propagating
`interrupted_exc_t` out of the call. -/
inductive CreateResult where
  | success
  | maybe
  | failure
  | interrupted
deriving DecidableEq, Repr

def num_acked (os : List PeerOutcome) : Nat :=
  os.countP (fun o => decide (o = PeerOutcome.acked))

/-- The classification at the end of `table_meta_client_t::create` (lines
224-253): throw if the interruptor is pulsed; with at least one ack, wait
for the new table id to appear in the mirror (success on appear, maybe on
timeout, throw if the interruptor fired during the wait); with no acks,
maybe if any business card was attempted and failure otherwise. -/
def create_classify (os : List PeerOutcome) (interruptor_pulsed : Bool)
    (w : DirWait) : CreateResult :=
  if interruptor_pulsed then .interrupted
  else if 0 < num_acked os then
    match w with
    | .appeared => .success
    | .waitInterrupted pulsed => if pulsed then .interrupted else .maybe
  else if !os.isEmpty then .maybe
  else .failure

/-- C4: in an uninterrupted run of `create`, `num_acked > 0` yields
success when the table id appears before the timeout and maybe when the
timeout elapses first; `num_acked == 0` with a nonempty set of attempted
business cards yields maybe; no attempted peers yields failure. -/
theorem create_classify_spec (os : List PeerOutcome) (w : DirWait) :
    (0 < num_acked os → create_classify os false DirWait.appeared =
      CreateResult.success) ∧
    (0 < num_acked os →
      create_classify os false (DirWait.waitInterrupted false) =
        CreateResult.maybe) ∧
    (num_acked os = 0 → os ≠ [] →
      create_classify os false w = CreateResult.maybe) ∧
    (create_classify [] false w = CreateResult.failure) := by
  refine ⟨fun h => ?_, fun h => ?_, fun h hne => ?_, ?_⟩
  · simp [create_classify, h]
  · simp [create_classify, h]
  · simp [create_classify, h, hne]
  · simp [create_classify, num_acked]

theorem create_classify_spec_check :
    (0 < num_acked [PeerOutcome.acked, PeerOutcome.lost] →
      create_classify [PeerOutcome.acked, PeerOutcome.lost] false
        DirWait.appeared = CreateResult.success) ∧
    (0 < num_acked [PeerOutcome.acked, PeerOutcome.lost] →
      create_classify [PeerOutcome.acked, PeerOutcome.lost] false
        (DirWait.waitInterrupted false) = CreateResult.maybe) ∧
    (num_acked [PeerOutcome.acked, PeerOutcome.lost] = 0 →
      [PeerOutcome.acked, PeerOutcome.lost] ≠ [] →
      create_classify [PeerOutcome.acked, PeerOutcome.lost] false
        DirWait.appeared = CreateResult.maybe) ∧
    (create_classify [] false DirWait.appeared = CreateResult.failure) :=
  create_classify_spec [PeerOutcome.acked, PeerOutcome.lost] DirWait.appeared

/-- The `run_key_until_satisfied` predicate of `set_config` (lines
397-401): satisfied when the entry is gone, or its timestamp supersedes
the acked one, or its name and database already match the new config. -/
def set_config_wait_pred (ts : MetaTimestamp) (cfg_name cfg_database : Nat)
    (m : Option TableMetadata) : Bool :=
  match m with
  | none => true
  | some md =>
      md.timestamp.supersedes ts ||
        (decide (md.name = cfg_name) && decide (md.database = cfg_database))

/-- The first signal observed by `set_config` after its message is sent
(lines 375-385): the disconnect watcher, the interruptor, or the leader's
reply carrying an optional new timestamp. -/
inductive SCReplyEvent where
  | disconnected
  | interruptedEarly
  | replied (ts : Option MetaTimestamp)
deriving DecidableEq, Repr

/-- The tail of `table_meta_client_t::set_config` (lines 375-411):
disconnect yields maybe, a `None` reply yields maybe, and after a
`Some(ts)` reply the code waits on `set_config_wait_pred` (joined with a
10-second timer) and returns success unless the interruptor itself fired
during that wait. -/
def set_config_after_send (ev : SCReplyEvent) (w : DirWait) : CreateResult :=
  match ev with
  | .disconnected => .maybe
  | .interruptedEarly => .interrupted
  | .replied none => .maybe
  | .replied (some _) =>
      match w with
      | .appeared => .success
      | .waitInterrupted pulsed => if pulsed then .interrupted else .success

/-- C7: the wait predicate of `set_config` is satisfied when the mirror
entry is absent, as well as when the entry's timestamp supersedes the
acked timestamp or its name and database match the new config; hence a
`set_config` that got a `Some(ts)` reply and is not interrupted returns
success even when a concurrent drop has deleted the entry. -/
theorem set_config_tolerates_deleted (ts : MetaTimestamp)
    (cfg_name cfg_database : Nat) :
    set_config_wait_pred ts cfg_name cfg_database none = true ∧
    (∀ md : TableMetadata, md.timestamp.supersedes ts = true →
      set_config_wait_pred ts cfg_name cfg_database (some md) = true) ∧
    (∀ md : TableMetadata, md.name = cfg_name → md.database = cfg_database →
      set_config_wait_pred ts cfg_name cfg_database (some md) = true) ∧
    set_config_after_send (SCReplyEvent.replied (some ts)) DirWait.appeared =
      CreateResult.success := by
  refine ⟨rfl, fun md h => ?_, fun md h1 h2 => ?_, rfl⟩
  · simp [set_config_wait_pred, h]
  · simp [set_config_wait_pred, h1, h2]

/-- The write-side state of `linux_net_conn_t` (network.cc): whether
`write_mode == write_mode_external`, the remaining byte count of the
active write, the `registered_for_writes` flag, and the
`write_was_shut_down` latch.  `wouldblock_observed` is a history variable
not present in the source: it records whether the current write operation
has seen a `::write` attempt return EAGAIN/EWOULDBLOCK; `write_external`
resets it when a new write starts. -/
structure WriteConn where
  write_mode_external : Bool
  external_write_size : Nat
  registered_for_writes : Bool
  write_was_shut_down : Bool
  wouldblock_observed : Bool
deriving DecidableEq, Repr

/-- Result of one `::write` syscall: `wrote n` is a successful write of
`n + 1` bytes (capped by the remaining request, as the kernel never writes
more than asked), `wouldblock` is EAGAIN/EWOULDBLOCK, `brokenPipe` covers
the EPIPE/ENOTCONN/EHOSTUNREACH/ENETDOWN/EHOSTDOWN/ECONNRESET family,
`otherErr` any other errno, and `zero` a zero return. -/
inductive WriteRes where
  | wrote (n : Nat)
  | wouldblock
  | brokenPipe
  | otherErr
  | zero
deriving DecidableEq, Repr

/-- The completion block of `try_to_write_external_buf` (lines 282-293):
revert the poller to readable-only when writable interest was added, clear
`registered_for_writes` and `write_mode`. -/
def write_complete (s : WriteConn) : WriteConn :=
  { s with registered_for_writes := false, write_mode_external := false }

/-- `linux_net_conn_t::try_to_write_external_buf` (lines 236-294) over a
sequence of syscall results: loop while bytes remain; on would-block set
`registered_for_writes` (and the history flag) and return; on any error or
a zero return run `on_shutdown_write` and return; when the request drains,
run the completion block. -/
def try_to_write_external_buf (s : WriteConn) : List WriteRes → WriteConn
  | [] => if s.external_write_size = 0 then write_complete s else s
  | r :: rs =>
      if s.external_write_size = 0 then write_complete s
      else
        match r with
        | .wrote n =>
            try_to_write_external_buf
              { s with external_write_size :=
                  s.external_write_size - min (n + 1) s.external_write_size } rs
        | .wouldblock =>
            { s with registered_for_writes := true, wouldblock_observed := true }
        | .brokenPipe => { s with write_was_shut_down := true }
        | .otherErr => { s with write_was_shut_down := true }
        | .zero => { s with write_was_shut_down := true }

/-- `linux_net_conn_t::write_external` (lines 221-234): asserts that the
write half is open and no write is active (states violating the assertion
are left unchanged), then starts an external write and runs the write
loop. -/
def write_external (s : WriteConn) (size : Nat) (rs : List WriteRes) :
    WriteConn :=
  if s.write_was_shut_down || s.write_mode_external then s
  else
    try_to_write_external_buf
      { s with write_mode_external := true, external_write_size := size,
               wouldblock_observed := false } rs

/-- The writable branch of `linux_net_conn_t::on_event` (lines 424-432):
skipped when the write half was shut down; dispatches on `write_mode`. -/
def on_event_writable (s : WriteConn) (rs : List WriteRes) : WriteConn :=
  if s.write_was_shut_down then s
  else if s.write_mode_external then try_to_write_external_buf s rs
  else s

/-- `linux_net_conn_t::on_shutdown_write` (lines 353-380): latch the
one-way flag; the poller re-registration and the `on_close` callback touch
none of the modelled fields.  Note it does not clear `write_mode` or
`registered_for_writes`. -/
def on_shutdown_write (s : WriteConn) : WriteConn :=
  { s with write_was_shut_down := true }

inductive WriteEvent where
  | startWrite (size : Nat) (rs : List WriteRes)
  | writable (rs : List WriteRes)
  | shutdownWr
deriving Repr

def write_step (s : WriteConn) : WriteEvent → WriteConn
  | .startWrite size rs => write_external s size rs
  | .writable rs => on_event_writable s rs
  | .shutdownWr => on_shutdown_write s

/-- The constructor state of `linux_net_conn_t` (lines 16-28). -/
def initWriteConn : WriteConn :=
  { write_mode_external := false, external_write_size := 0,
    registered_for_writes := false, write_was_shut_down := false,
    wouldblock_observed := false }

def run_write_conn (es : List WriteEvent) : WriteConn :=
  es.foldl write_step initWriteConn

def write_reg_invariant (s : WriteConn) : Bool :=
  s.registered_for_writes ==
    (s.write_mode_external && s.wouldblock_observed)

theorem try_to_write_preserves (rs : List WriteRes) :
    ∀ s : WriteConn, write_reg_invariant s = true →
      s.write_mode_external = true →
      write_reg_invariant (try_to_write_external_buf s rs) = true := by
  induction rs with
  | nil =>
    intro s h hm
    simp only [try_to_write_external_buf]
    split
    · simp [write_reg_invariant, write_complete]
    · exact h
  | cons r rs ih =>
    intro s h hm
    simp only [try_to_write_external_buf]
    split
    · simp [write_reg_invariant, write_complete]
    · cases r with
      | wrote n =>
        apply ih
        · simpa [write_reg_invariant] using h
        · simpa using hm
      | wouldblock => simp [write_reg_invariant, hm]
      | brokenPipe => simpa [write_reg_invariant] using h
      | otherErr => simpa [write_reg_invariant] using h
      | zero => simpa [write_reg_invariant] using h

theorem write_step_preserves (s : WriteConn) (e : WriteEvent)
    (h : write_reg_invariant s = true) :
    write_reg_invariant (write_step s e) = true := by
  cases e with
  | startWrite size rs =>
    simp only [write_step, write_external]
    split
    · exact h
    · apply try_to_write_preserves rs _ _ rfl
      simp only [write_reg_invariant, beq_iff_eq] at h ⊢
      simp only [Bool.and_false]
      rename_i hg
      simp only [Bool.or_eq_true, not_or, Bool.not_eq_true] at hg
      rw [h, hg.2, Bool.false_and]
  | writable rs =>
    simp only [write_step, on_event_writable]
    split
    · exact h
    · by_cases hm : s.write_mode_external = true
      · rw [if_pos hm]
        exact try_to_write_preserves rs s h hm
      · rw [if_neg (by simpa using hm)]
        exact h
  | shutdownWr =>
    simpa [write_step, on_shutdown_write, write_reg_invariant] using h

/-- C3: in every connection state reachable by any sequence of
`write_external` calls, writable-readiness events and write shutdowns,
`registered_for_writes` is true iff a write operation is in progress
(`write_mode` is still `write_mode_external`, i.e. the write has not
completed) and at least one `::write` attempt of that operation returned
would-block; in particular it is false whenever no write is in progress. -/
theorem registered_for_writes_iff (es : List WriteEvent) :
    (run_write_conn es).registered_for_writes = true ↔
      ((run_write_conn es).write_mode_external = true ∧
        (run_write_conn es).wouldblock_observed = true) := by
  have h : write_reg_invariant (run_write_conn es) = true := by
    rw [run_write_conn]
    induction es using List.reverseRecOn with
    | nil => rfl
    | append_singleton es e ih =>
      rw [List.foldl_append, List.foldl_cons, List.foldl_nil]
      exact write_step_preserves _ e ih
  simp only [write_reg_invariant, beq_iff_eq] at h
  rw [h, Bool.and_eq_true]

/-- Result of one `::read` syscall in the external-read loop: `ok n` asks
the kernel for the remaining bytes and receives up to `n` of them (capped
by the request and by what the wire stream still holds; receiving zero
bytes is the peer-close case `res == 0`), `wouldblock` is
EAGAIN/EWOULDBLOCK, `connReset` is ECONNRESET/ENOTCONN, `otherErr` any
other errno. -/
inductive ReadRes where
  | ok (n : Nat)
  | wouldblock
  | connReset
  | otherErr
deriving DecidableEq, Repr

/-- How the external-read loop left the connection: the request was
completely filled, or it is waiting for readable-readiness, or the read
half was shut down (`on_shutdown_read`). -/
inductive ReadStatus where
  | complete
  | waiting
  | closedR
deriving DecidableEq, Repr

/-- `linux_net_conn_t::try_to_read_external_buf` (lines 69-107): loop
while bytes remain, reading from the wire stream directly into the tail of
the caller's buffer.  Returns the bytes delivered by the syscalls (in
order), the remaining wire stream, and the final status.  Errors other
than would-block, a zero return included, run `on_shutdown_read`. -/
def read_loop : List ReadRes → List Nat → Nat → List Nat × List Nat × ReadStatus
  | _, wire, 0 => ([], wire, .complete)
  | [], wire, _ + 1 => ([], wire, .waiting)
  | .wouldblock :: _, wire, _ + 1 => ([], wire, .waiting)
  | .connReset :: _, wire, _ + 1 => ([], wire, .closedR)
  | .otherErr :: _, wire, _ + 1 => ([], wire, .closedR)
  | .ok n :: rs, wire, size + 1 =>
      let chunk := wire.take (min n (size + 1))
      if chunk.isEmpty then ([], wire, .closedR)
      else
        let out := read_loop rs (wire.drop chunk.length) (size + 1 - chunk.length)
        (chunk ++ out.1, out.2.1, out.2.2)

/-- Result of `linux_net_conn_t::read_external`: the bytes placed in the
caller's buffer so far, the remaining peek buffer, the remaining wire
stream, and the loop status. -/
structure ReadOut where
  filled : List Nat
  peek : List Nat
  wire : List Nat
  status : ReadStatus
deriving DecidableEq, Repr

/-- `linux_net_conn_t::read_external` (lines 44-67): copy
`min(peek_buffer.size(), size)` bytes from the head of the peek buffer
into the buffer and erase them from the peek buffer, then run the
nonblocking read loop for the remaining tail. -/
def read_external (peek : List Nat) (size : Nat) (wire : List Nat)
    (rs : List ReadRes) : ReadOut :=
  let k := min peek.length size
  let out := read_loop rs wire (size - k)
  { filled := peek.take k ++ out.1, peek := peek.drop k,
    wire := out.2.1, status := out.2.2 }

theorem read_loop_spec (rs : List ReadRes) :
    ∀ (wire : List Nat) (size : Nat) (bs wire' : List Nat) (st : ReadStatus),
      read_loop rs wire size = (bs, wire', st) →
      bs = wire.take bs.length ∧ wire' = wire.drop bs.length ∧
        bs.length ≤ size ∧
        (st = ReadStatus.complete → bs.length = size) := by
  induction rs with
  | nil =>
    intro wire size bs wire' st heq
    cases size with
    | zero =>
      simp only [read_loop, Prod.mk.injEq] at heq
      obtain ⟨h1, h2, h3⟩ := heq
      subst h1; subst h2; subst h3
      simp
    | succ sz =>
      simp only [read_loop, Prod.mk.injEq] at heq
      obtain ⟨h1, h2, h3⟩ := heq
      subst h1; subst h2; subst h3
      simp
  | cons r rs ih =>
    intro wire size bs wire' st heq
    cases size with
    | zero =>
      simp only [read_loop, Prod.mk.injEq] at heq
      obtain ⟨h1, h2, h3⟩ := heq
      subst h1; subst h2; subst h3
      simp
    | succ sz =>
      cases r with
      | wouldblock =>
        simp only [read_loop, Prod.mk.injEq] at heq
        obtain ⟨h1, h2, h3⟩ := heq
        subst h1; subst h2; subst h3
        simp
      | connReset =>
        simp only [read_loop, Prod.mk.injEq] at heq
        obtain ⟨h1, h2, h3⟩ := heq
        subst h1; subst h2; subst h3
        simp
      | otherErr =>
        simp only [read_loop, Prod.mk.injEq] at heq
        obtain ⟨h1, h2, h3⟩ := heq
        subst h1; subst h2; subst h3
        simp
      | ok n =>
        simp only [read_loop] at heq
        split at heq
        · simp only [Prod.mk.injEq] at heq
          obtain ⟨h1, h2, h3⟩ := heq
          subst h1; subst h2; subst h3
          simp
        · simp only [Prod.mk.injEq] at heq
          obtain ⟨h1, h2, h3⟩ := heq
          subst h1
          subst h2
          subst h3
          obtain ⟨iha, ihb, ihc, ihd⟩ :=
            ih (wire.drop (wire.take (min n (sz + 1))).length)
              (sz + 1 - (wire.take (min n (sz + 1))).length)
              _ _ _ rfl
          have hcl : (wire.take (min n (sz + 1))).length =
              min (min n (sz + 1)) wire.length := List.length_take _ _
          have hck : wire.take ((wire.take (min n (sz + 1))).length) =
              wire.take (min n (sz + 1)) := by
            rw [List.take_eq_take, hcl]
            omega
          have hbound : (wire.take (min n (sz + 1))).length ≤ sz + 1 := by
            rw [hcl]; omega
          have key : wire.take ((wire.take (min n (sz + 1))).length +
              (read_loop rs (wire.drop (wire.take (min n (sz + 1))).length)
                (sz + 1 - (wire.take (min n (sz + 1))).length)).1.length) =
              wire.take (min n (sz + 1)) ++
              (read_loop rs (wire.drop (wire.take (min n (sz + 1))).length)
                (sz + 1 - (wire.take (min n (sz + 1))).length)).1 := by
            rw [List.take_add, hck, ← iha]
          refine ⟨?_, ?_, ?_, ?_⟩
          · rw [List.length_append, key]
          · rw [ihb, List.drop_drop, List.length_append, Nat.add_comm]
          · rw [List.length_append]
            omega
          · intro hst
            have := ihd hst
            rw [List.length_append]
            omega

/-- C6: `read_external` fills the first `min(size, peek_buffer.size())`
bytes of the caller's buffer from the head of the peek buffer, which loses
exactly those bytes before any syscall is issued; every byte delivered by
the subsequent syscalls lands after that prefix and is taken in order from
the head of the wire stream, so the buffer always holds peek-buffer bytes
followed by wire bytes in wire-stream order, and on completion it is
exactly that prefix followed by the next `size - min(size, peek)` wire
bytes. -/
theorem read_external_spec (peek : List Nat) (size : Nat) (wire : List Nat)
    (rs : List ReadRes) :
    (read_external peek size wire rs).peek =
      peek.drop (min peek.length size) ∧
    (∃ m, m ≤ size - min peek.length size ∧
      (read_external peek size wire rs).filled =
        peek.take (min peek.length size) ++ wire.take m ∧
      (read_external peek size wire rs).wire = wire.drop m) ∧
    ((read_external peek size wire rs).status = ReadStatus.complete →
      (read_external peek size wire rs).filled =
        peek.take (min peek.length size) ++
          wire.take (size - min peek.length size)) := by
  obtain ⟨ha, hb, hc, hd⟩ :=
    read_loop_spec rs wire (size - min peek.length size)
      (read_loop rs wire (size - min peek.length size)).1
      (read_loop rs wire (size - min peek.length size)).2.1
      (read_loop rs wire (size - min peek.length size)).2.2 rfl
  refine ⟨rfl, ⟨(read_loop rs wire (size - min peek.length size)).1.length,
    hc, ?_, ?_⟩, ?_⟩
  · simp only [read_external]
    rw [← ha]
  · simp only [read_external]
    exact hb
  · intro hst
    simp only [read_external] at hst ⊢
    rw [ha, hd hst]

/-- Observable side effects of a listener: registering with or forgetting
from the poller, handing an accepted descriptor to the callback, and the
kernel-level shutdown/close of the listening socket. -/
inductive ListenerEffect where
  | watched
  | forgot
  | accepted (fd : Nat)
  | sockShutdown
  | sockClosed
deriving DecidableEq, Repr

/-- The state of `linux_net_listener_t` relevant to its public operations:
the `defunct` latch and whether a callback was installed. -/
structure NetListener where
  defunct : Bool
  has_callback : Bool
deriving DecidableEq, Repr

/-- Outcome of the `linux_net_listener_t` constructor: `aborted` when a
`guarantee_err` check fails, otherwise a constructed listener. -/
inductive ConsOutcome where
  | aborted
  | ok (l : NetListener)
deriving DecidableEq, Repr

/-- The `linux_net_listener_t` constructor (lines 461-512): socket
creation, the two setsockopt calls, listen and the nonblocking fcntl all
abort via `guarantee_err` on failure; a bind failure instead latches
`defunct = true` and returns normally. -/
def mkListener (socket_ok sockopt_reuse_ok sockopt_nodelay_ok bind_ok
    listen_ok fcntl_ok : Bool) : ConsOutcome :=
  if !socket_ok then .aborted
  else if !sockopt_reuse_ok then .aborted
  else if !sockopt_nodelay_ok then .aborted
  else if !bind_ok then .ok { defunct := true, has_callback := false }
  else if !listen_ok then .aborted
  else if !fcntl_ok then .aborted
  else .ok { defunct := false, has_callback := false }

/-- `linux_net_listener_t::set_callback` (lines 514-523): a no-op when
defunct; otherwise store the callback and register readable interest with
the poller. -/
def listener_set_callback (l : NetListener) :
    NetListener × List ListenerEffect :=
  if l.defunct then (l, [])
  else ({ l with has_callback := true }, [ListenerEffect.watched])

/-- Result of one `accept` call before the terminating would-block:
a new connection descriptor, a transient errno from the tolerated set
(EPROTO/ENOPROTOOPT/ENETDOWN/ENONET/ENETUNREACH/EINTR), or any other
errno (logged, loop continues). -/
inductive AcceptRes where
  | conn (fd : Nat)
  | transientErr
  | otherErr
deriving DecidableEq, Repr

/-- `linux_net_listener_t::on_event` (lines 525-562): returns immediately
when defunct; otherwise drains `accept` until would-block, handing each
new descriptor to the callback and continuing past errors. -/
def listener_on_event (l : NetListener) (rs : List AcceptRes) :
    List ListenerEffect :=
  if l.defunct then []
  else rs.filterMap fun r =>
    match r with
    | .conn fd => some (ListenerEffect.accepted fd)
    | _ => none

/-- The `linux_net_listener_t` destructor (lines 564-577): returns
immediately when defunct; otherwise forgets the poller registration (when
a callback was set), shuts down and closes the socket. -/
def listener_destroy (l : NetListener) : List ListenerEffect :=
  if l.defunct then []
  else
    (if l.has_callback then [ListenerEffect.forgot] else []) ++
      [ListenerEffect.sockShutdown, ListenerEffect.sockClosed]

/-- C8: a bind failure latches `defunct = true` while construction returns
normally (whatever the later listen/fcntl checks would have said), and on
a defunct listener `set_callback`, `on_event` and the destructor return
immediately with no poller registration, no accepted connection, and no
socket shutdown or close. -/
theorem listener_defunct_no_ops (lo fo : Bool) (rs : List AcceptRes) :
    mkListener true true true false lo fo =
      ConsOutcome.ok { defunct := true, has_callback := false } ∧
    (∀ l : NetListener, l.defunct = true →
      listener_set_callback l = (l, []) ∧
      listener_on_event l rs = [] ∧
      listener_destroy l = []) := by
  refine ⟨rfl, fun l hd => ⟨?_, ?_, ?_⟩⟩
  · simp [listener_set_callback, hd]
  · simp [listener_on_event, hd]
  · simp [listener_destroy, hd]

end RethinkDB
